import Mathlib

/-!
Shallow embedding of `src/risk_management_dashboard.py`, a Streamlit
dashboard that polls a Hyperliquid account (via ccxt) and renders balance,
open positions and trade history.

Modelling conventions:
* Python dicts whose fields may be absent become structures of `Option`
  fields; `d.get(k, default)` becomes `Option.getD`.
* Python floats become `ℚ` (the claims under study concern exact
  comparisons with 0, sums, differences and sort order, none of which
  depends on binary rounding); `float(x)` on an already-numeric value is
  the identity.
* The ccxt exchange object is a record of response-producing fields
  (`ExchangeGateway`); a raised exception is an `Except.error`.
* Streamlit rendering is modelled by pure functions from the fetched data
  to small "render" datatypes recording exactly what the script would
  display (warning vs. metrics vs. nothing), with no formatting of strings.
* `datetime.now()` is passed in explicitly as an epoch-seconds rational;
  `datetime.fromtimestamp` is modelled abstractly by a constructor carrying
  the epoch-seconds argument (local-time conversion is environment state).
-/

namespace RiskDashboard

/-- A raw ccxt position dict: every field the dashboard reads, each
possibly absent (`pos.get(key, default)` in the source). -/
structure RawPosition where
  symbol : Option String := none
  contracts : Option ℚ := none
  side : Option String := none
  entryPrice : Option ℚ := none
  markPrice : Option ℚ := none
  notional : Option ℚ := none
  unrealizedPnl : Option ℚ := none
  percentage : Option ℚ := none
deriving DecidableEq

/-- The `fee` field of a raw ccxt trade: either a dict with an optional
`cost` entry, or some non-dict value (the source guards with
`isinstance(fee, dict)`). -/
inductive FeeField where
  | dict (cost : Option ℚ)
  | nondict
deriving DecidableEq

/-- The Hyperliquid-specific nested `info` dict of a raw trade; the source
reads `closedPnl` (a numeric string, modelled by its value) and `oid`. -/
structure InfoField where
  closedPnl : Option ℚ := none
  oid : Option ℤ := none
deriving DecidableEq

/-- A raw ccxt trade dict: the fields the dashboard reads. -/
structure RawTrade where
  symbol : Option String := none
  side : Option String := none
  amount : Option ℚ := none
  price : Option ℚ := none
  cost : Option ℚ := none
  fee : Option FeeField := none
  info : Option InfoField := none
  timestamp : Option ℚ := none
deriving DecidableEq

/-- The per-currency entry `balance['USDC']` when it is a dict. -/
structure UsdcDict where
  total : Option ℚ := none
  free : Option ℚ := none
  used : Option ℚ := none
deriving DecidableEq

/-- Field `balance['USDC']` as stored: a dict or some non-dict value (the source
guards with `isinstance(usdc, dict)`). -/
inductive UsdcField where
  | dict (d : UsdcDict)
  | nondict
deriving DecidableEq

/-- A raw ccxt balance response; `usdc = none` models the absence of a
`'USDC'` key (and, conflated harmlessly, an empty falsy dict — both take
the same warning branch in the script). -/
structure Balance where
  usdc : Option UsdcField := none
deriving DecidableEq

/-- The ccxt Hyperliquid exchange object, as the dashboard uses it: three
remote calls, each of which either returns a payload or raises. -/
structure ExchangeGateway where
  fetch_balance : Except String Balance
  fetch_positions : Except String (List RawPosition)
  fetch_my_trades : String → ℤ → Except String (List RawTrade)

/-- Class `RiskManagementClient`: holds `self.client`, which is `None` when
gateway construction failed. -/
structure RiskManagementClient where
  client : Option ExchangeGateway

/-- Constructor plus `_initialize_client`: on any construction failure the
exception is caught, an error is shown, and `self.client` is set to
`None` for the lifetime of the process. -/
def mkRiskManagementClient (construction : Except String ExchangeGateway) :
    RiskManagementClient :=
  match construction with
  | .ok g => ⟨some g⟩
  | .error _ => ⟨none⟩

/-- Method `get_account_balance`: `None` client short-circuits to `None`; a
raising fetch is caught and degrades to `None`. -/
def get_account_balance (c : RiskManagementClient) : Option Balance :=
  match c.client with
  | none => none
  | some g =>
    match g.fetch_balance with
    | .ok b => some b
    | .error _ => none

/-- Method `get_open_positions`: `None` client short-circuits to `[]`; a raising
fetch degrades to `[]`; otherwise keeps exactly the positions whose
`contracts` (default 0 when missing) is nonzero, in fetch order. -/
def get_open_positions (c : RiskManagementClient) : List RawPosition :=
  match c.client with
  | none => []
  | some g =>
    match g.fetch_positions with
    | .ok positions => positions.filter (fun pos => pos.contracts.getD 0 != 0)
    | .error _ => []

/-- Python `int(...)` on a rational: truncation toward zero. -/
def pyInt (q : ℚ) : ℤ :=
  if 0 ≤ q then ⌊q⌋ else ⌈q⌉

/-- Expression `int((datetime.now() - timedelta(days=days)).timestamp() * 1000)`:
the cutoff for the trade-history fetch, from the current epoch-seconds
clock value. -/
def tradeSince (nowSec : ℚ) (days : ℤ) : ℤ :=
  pyInt ((nowSec - days * 86400) * 1000)

/-- The hardcoded candidate symbol list of `get_trade_history`. -/
def tradeSymbols : List String :=
  ["BTC/USDC:USDC", "ETH/USDC:USDC", "SOL/USDC:USDC",
   "XRP/USDC:USDC", "AVAX/USDC:USDC"]

/-- One iteration of the per-symbol fetch loop: a raising
`fetch_my_trades` is silently skipped (`except: continue`), contributing
nothing to `all_trades`. -/
def fetchSymbolTrades (g : ExchangeGateway) (symbol : String) (since : ℤ) :
    List RawTrade :=
  match g.fetch_my_trades symbol since with
  | .ok trades => trades
  | .error _ => []

/-- The sort key `lambda x: x.get('timestamp', 0)`. -/
def tsKey (t : RawTrade) : ℚ :=
  t.timestamp.getD 0

/-- The comparison realising `sort(key=..., reverse=True)`: `a` may come
before `b` iff `a`'s key is ≥ `b`'s key (descending order). -/
def tradeDescLe (a b : RawTrade) : Bool :=
  decide (tsKey b ≤ tsKey a)

/-- Method `get_trade_history`: `None` client short-circuits to `[]`; computes
one cutoff, fetches each candidate symbol with it (skipping per-symbol
failures), concatenates, and stably sorts by timestamp, newest first
(Python's `list.sort` is a stable merge sort; `reverse=True` preserves
the original order of equal keys). -/
def get_trade_history (c : RiskManagementClient) (nowSec : ℚ) (days : ℤ) :
    List RawTrade :=
  match c.client with
  | none => []
  | some g =>
    let since := tradeSince nowSec days
    let all_trades :=
      (tradeSymbols.map (fun symbol => fetchSymbolTrades g symbol since)).flatten
    all_trades.mergeSort tradeDescLe

/-- Round-half-even of a rational to an integer, the rounding used by
Python's fixed-point `format` (idealised over exact rationals; the binary
double representation error is not modelled, and no claim depends on it). -/
def roundHalfEven (q : ℚ) : ℤ :=
  if q - ⌊q⌋ < 1/2 then ⌊q⌋
  else if 1/2 < q - ⌊q⌋ then ⌊q⌋ + 1
  else if ⌊q⌋ % 2 = 0 then ⌊q⌋ else ⌊q⌋ + 1

/-- Value round-trip of `f"...{x:.<scale>f}"` followed by
`float(s.replace('$', '').replace(',', ''))`: the value rounded to
`scale` decimal places. -/
def pyFmtRound (scale : ℕ) (q : ℚ) : ℚ :=
  (roundHalfEven (q * 10 ^ scale) : ℚ) / 10 ^ scale

/-- Source `fee = trade.get('fee', {}); fee_cost = fee.get('cost', 0) if
isinstance(fee, dict) else 0`. A missing `fee` key yields the empty dict,
whose `get('cost', 0)` is 0. -/
def tradeFeeCost (t : RawTrade) : ℚ :=
  match t.fee with
  | none => 0
  | some (.dict cost) => cost.getD 0
  | some .nondict => 0

/-- Source `info = trade.get('info', {}); closed_pnl = info.get('closedPnl',
None); closed_pnl = 0.0 if closed_pnl is None else float(closed_pnl)`. -/
def tradeClosedPnl (t : RawTrade) : ℚ :=
  match (t.info.getD ⟨none, none⟩).closedPnl with
  | none => 0
  | some v => v

/-- Source `order_id = info.get('oid', None); order_id = 'N/A' if order_id is
None else str(order_id)`. -/
def tradeOrderId (t : RawTrade) : String :=
  match (t.info.getD ⟨none, none⟩).oid with
  | none => "N/A"
  | some oid => toString oid

/-- A displayable time: either the local wall-clock rendering of an epoch
instant (`datetime.fromtimestamp`, argument in epoch seconds) or the
current time (`datetime.now()`). -/
inductive PyTime where
  | fromEpochSec (s : ℚ)
  | currentTime
deriving DecidableEq

/-- Source `timestamp = trade.get('timestamp', 0); dt =
datetime.fromtimestamp(timestamp / 1000) if timestamp else
datetime.now()` — Python truthiness: any nonzero timestamp is converted,
a missing or zero timestamp falls back to the current time. -/
def tradeTime (t : RawTrade) : PyTime :=
  let timestamp := t.timestamp.getD 0
  if timestamp = 0 then .currentTime else .fromEpochSec (timestamp / 1000)

/-- One row of `trades_data`, holding the values the displayed strings
carry: `feeDisp`/`pnlDisp` are the `.4f`/`,.2f`-rounded values that the
statistics panel parses back out of the formatted strings. -/
structure TradeRow where
  time : PyTime
  symbol : String
  side : String
  oid : String
  amount : ℚ
  price : ℚ
  cost : ℚ
  feeDisp : ℚ
  pnlDisp : ℚ
deriving DecidableEq

/-- Building one `trades_data` row from a raw trade (source lines
314–350). -/
def mkTradeRow (t : RawTrade) : TradeRow where
  time := tradeTime t
  symbol := t.symbol.getD "N/A"
  side := (t.side.getD "N/A").toUpper
  oid := tradeOrderId t
  amount := t.amount.getD 0
  price := t.price.getD 0
  cost := t.cost.getD 0
  feeDisp := pyFmtRound 4 (tradeFeeCost t)
  pnlDisp := pyFmtRound 2 (tradeClosedPnl t)

/-- The `filtered_df` computation: start from all rows, filter by symbol
unless the symbol filter is "All", then by side unless the side filter is
"All". -/
def filterTrades (rows : List TradeRow) (filterSymbol filterSide : String) :
    List TradeRow :=
  let bySymbol :=
    if filterSymbol = "All" then rows
    else rows.filter (fun r => r.symbol == filterSymbol)
  if filterSide = "All" then bySymbol
  else bySymbol.filter (fun r => r.side == filterSide)

/-- The three metrics of the Trade Statistics expander. -/
structure TradeStats where
  totalClosedPnl : ℚ
  totalFees : ℚ
  netPnl : ℚ
deriving DecidableEq

/-- The Trade Statistics expander body (source lines 372–384): metrics
are computed and displayed only when the filtered frame is nonempty
(`if len(filtered_df) > 0:`); for an empty filtered frame nothing is
rendered. -/
def tradeStatistics (filtered : List TradeRow) : Option TradeStats :=
  if filtered.length > 0 then
    let total_closed_pnl := (filtered.map (fun r => r.pnlDisp)).sum
    let total_fees := (filtered.map (fun r => r.feeDisp)).sum
    some ⟨total_closed_pnl, total_fees, total_closed_pnl - total_fees⟩
  else none

/-- The summary metrics of the Open Positions section. -/
structure PositionsSummary where
  totalPositions : ℕ
  totalUnrealizedPnl : ℚ
  totalNotional : ℚ
deriving DecidableEq

/-- The Open Positions summary (source lines 241–253): rendered only when
the position list is truthy (`if positions:`); the empty list takes the
`st.info("No open positions")` branch and shows no aggregate. -/
def positionsSummary (positions : List RawPosition) : Option PositionsSummary :=
  if positions.isEmpty then none
  else
    some
      { totalPositions := positions.length
        totalUnrealizedPnl := (positions.map (fun pos => pos.unrealizedPnl.getD 0)).sum
        totalNotional := (positions.map (fun pos => pos.notional.getD 0)).sum }

/-- What the Account Balance section renders. -/
inductive BalanceRender where
  | warning
  | noMetrics
  | metrics (total free used : ℚ) (usageBar : Option ℚ)
deriving DecidableEq

/-- Source `usage_percent = (used / total) * 100`. -/
def marginUsagePercent (total used : ℚ) : ℚ :=
  used / total * 100

/-- The Account Balance section (source lines 215–235): a falsy or
`'USDC'`-less balance shows the warning; a non-dict `'USDC'` entry shows
nothing; otherwise the three metrics are shown, with the margin-usage
progress bar only when `total > 0`. -/
def renderBalanceSection (balance : Option Balance) : BalanceRender :=
  match balance with
  | none => .warning
  | some b =>
    match b.usdc with
    | none => .warning
    | some .nondict => .noMetrics
    | some (.dict usdc) =>
      let total := usdc.total.getD 0
      let free := usdc.free.getD 0
      let used := usdc.used.getD 0
      .metrics total free used
        (if total > 0 then some (marginUsagePercent total used) else none)

/-- Sample long position (nonzero size), for instantiating theorems. -/
def posLong : RawPosition :=
  { symbol := some "BTC/USDC:USDC", contracts := some 2, side := some "long",
    unrealizedPnl := some 5 }

/-- Sample flat position with an explicit size of 0. -/
def posZero : RawPosition :=
  { contracts := some 0 }

/-- Sample position with the size field missing entirely. -/
def posNoSize : RawPosition :=
  {}

/-- Sample short position (negative, hence nonzero, size). -/
def posShort : RawPosition :=
  { contracts := some (-3), unrealizedPnl := some (-1) }

/-- Sample trade with full metadata and timestamp 100. -/
def tradeA : RawTrade :=
  { symbol := some "BTC/USDC:USDC", side := some "buy", timestamp := some 100,
    info := some { closedPnl := some 7, oid := some 12345 } }

/-- Sample trade with timestamp 200 and no metadata. -/
def tradeB : RawTrade :=
  { side := some "sell", timestamp := some 200 }

/-- Sample trade with every field missing (timestamp defaults to 0). -/
def tradeZero : RawTrade :=
  {}

/-- Sample trade whose timestamp is exactly one day in milliseconds. -/
def tradeTimed : RawTrade :=
  { timestamp := some 86400000 }

/-- Sample gateway answering the scenario inputs of the spec: the balance
of §8, four positions (two nonzero, one zero, one missing), and trades on
two of the five candidate symbols. -/
def sampleGateway : ExchangeGateway where
  fetch_balance :=
    .ok { usdc := some (.dict { total := some 1000, free := some 600, used := some 400 }) }
  fetch_positions := .ok [posLong, posZero, posNoSize, posShort]
  fetch_my_trades := fun symbol _ =>
    if symbol = "BTC/USDC:USDC" then .ok [tradeA, tradeZero]
    else if symbol = "ETH/USDC:USDC" then .ok [tradeB]
    else .error "symbol not found"

/-- Sample gateway whose only position is flat and whose other calls
raise. -/
def flatGateway : ExchangeGateway where
  fetch_balance := .error "network"
  fetch_positions := .ok [posZero]
  fetch_my_trades := fun _ _ => .error "network"

/-- Sample normalized trade row (a BUY), for the statistics-panel
theorems. -/
def sampleBuyRow : TradeRow :=
  { time := .currentTime, symbol := "BTC/USDC:USDC", side := "BUY", oid := "12345",
    amount := 2, price := 10, cost := 20, feeDisp := 1, pnlDisp := 5 }

/-- Truncation toward zero is the identity on integers. -/
theorem pyInt_intCast (n : ℤ) : pyInt (n : ℚ) = n := by
  unfold pyInt
  split <;> simp

/-- The descending comparison is transitive. -/
theorem tradeDescLe_trans (a b c : RawTrade) :
    tradeDescLe a b → tradeDescLe b c → tradeDescLe a c := by
  simp only [tradeDescLe, decide_eq_true_iff]
  exact fun h1 h2 => le_trans h2 h1

/-- The descending comparison is total. -/
theorem tradeDescLe_total (a b : RawTrade) :
    tradeDescLe a b || tradeDescLe b a := by
  simp only [tradeDescLe, Bool.or_eq_true, decide_eq_true_iff]
  exact le_total (tsKey b) (tsKey a)

/-- With a live gateway, `get_trade_history` is the stable merge sort of
the concatenated per-symbol fetches under the single computed cutoff. -/
theorem trade_history_eq_mergeSort (g : ExchangeGateway) (nowSec : ℚ) (days : ℤ) :
    get_trade_history ⟨some g⟩ nowSec days =
      ((tradeSymbols.map
        (fun symbol => fetchSymbolTrades g symbol (tradeSince nowSec days))).flatten).mergeSort
        tradeDescLe :=
  rfl

/-- The trade history comes out pairwise descending in the sort key. -/
theorem trade_history_pairwise (g : ExchangeGateway) (nowSec : ℚ) (days : ℤ) :
    (get_trade_history ⟨some g⟩ nowSec days).Pairwise
      (fun a b => tsKey b ≤ tsKey a) := by
  rw [trade_history_eq_mergeSort]
  have h := List.sorted_mergeSort
    (fun a b c => tradeDescLe_trans a b c) (fun a b => tradeDescLe_total a b)
    ((tradeSymbols.map
      (fun symbol => fetchSymbolTrades g symbol (tradeSince nowSec days))).flatten)
  exact h.imp (fun hab => by simpa [tradeDescLe, decide_eq_true_iff] using hab)

/-- C1: for every raw position list returned by the gateway,
`get_open_positions` returns exactly the entries whose `contracts` field
(defaulting to 0 when missing) is nonzero — it is the order-preserving
filter of the raw list: a sublist of the input whose members are exactly
the nonzero-size entries of the input. -/
theorem get_open_positions_exactly_nonzero (g : ExchangeGateway)
    (positions : List RawPosition) (h : g.fetch_positions = .ok positions) :
    get_open_positions ⟨some g⟩ =
      positions.filter (fun pos => pos.contracts.getD 0 != 0) ∧
    (get_open_positions ⟨some g⟩).Sublist positions ∧
    ∀ pos, pos ∈ get_open_positions ⟨some g⟩ ↔
      pos ∈ positions ∧ pos.contracts.getD 0 ≠ 0 := by
  have e : get_open_positions ⟨some g⟩ =
      positions.filter (fun pos => pos.contracts.getD 0 != 0) := by
    simp [get_open_positions, h]
  refine ⟨e, ?_, ?_⟩
  · rw [e]
    exact List.filter_sublist _
  · intro pos
    rw [e]
    simp [List.mem_filter]

/-- Witness for C1 at the sample gateway: the zero-size and missing-size
positions are dropped, the nonzero ones kept in order. -/
theorem get_open_positions_exactly_nonzero_witness :
    get_open_positions ⟨some sampleGateway⟩ = [posLong, posShort] := by
  have h := get_open_positions_exactly_nonzero sampleGateway
    [posLong, posZero, posNoSize, posShort] rfl
  exact h.1.trans (by decide)

/-- C3: when gateway construction fails, the client is permanently
unavailable: the stored handle is `None`, the balance is absent, the
position and trade queries return empty lists (no gateway is even held,
so no network call can be attempted, and every operation returns
normally), and the balance section renders its warning. -/
theorem init_failure_degraded_state (e : String) (nowSec : ℚ) (days : ℤ) :
    (mkRiskManagementClient (.error e)).client = none ∧
    get_account_balance (mkRiskManagementClient (.error e)) = none ∧
    get_open_positions (mkRiskManagementClient (.error e)) = [] ∧
    get_trade_history (mkRiskManagementClient (.error e)) nowSec days = [] ∧
    renderBalanceSection (get_account_balance (mkRiskManagementClient (.error e))) =
      .warning :=
  ⟨rfl, rfl, rfl, rfl, rfl⟩

/-- C7: for every balance snapshot, the usage bar shows
`used / total * 100` exactly when `total > 0`, and is absent otherwise. -/
theorem margin_usage_percentage (total free used : ℚ) :
    (0 < total →
      renderBalanceSection (some ⟨some (.dict ⟨some total, some free, some used⟩)⟩) =
        .metrics total free used (some (used / total * 100))) ∧
    (¬ 0 < total →
      renderBalanceSection (some ⟨some (.dict ⟨some total, some free, some used⟩)⟩) =
        .metrics total free used none) := by
  constructor <;> intro h <;>
    simp [renderBalanceSection, marginUsagePercent, h]

/-- Witness for C7, the spec scenario: total 1000, free 600, used 400
displays a margin usage of 40.0%. -/
theorem margin_usage_percentage_witness :
    renderBalanceSection (some ⟨some (.dict ⟨some 1000, some 600, some 400⟩)⟩) =
      .metrics 1000 600 400 (some 40) := by
  have h := (margin_usage_percentage 1000 600 400).1 (by norm_num)
  have e : (400 : ℚ) / 1000 * 100 = 40 := by norm_num
  rw [e] at h
  exact h

/-- C8: the normalized closed PnL is 0 when the nested `closedPnl` is
absent and the value itself when present; the normalized order id is the
sentinel "N/A" when the nested `oid` is absent and its string rendering
when present. -/
theorem trade_closed_pnl_oid_defaults (t : RawTrade) :
    ((t.info.getD ⟨none, none⟩).closedPnl = none → tradeClosedPnl t = 0) ∧
    (∀ v : ℚ, (t.info.getD ⟨none, none⟩).closedPnl = some v → tradeClosedPnl t = v) ∧
    ((t.info.getD ⟨none, none⟩).oid = none → tradeOrderId t = "N/A") ∧
    (∀ oid : ℤ, (t.info.getD ⟨none, none⟩).oid = some oid →
      tradeOrderId t = toString oid) := by
  refine ⟨fun h => ?_, fun v h => ?_, fun h => ?_, fun oid h => ?_⟩ <;>
    first
    | (unfold tradeClosedPnl; rw [h])
    | (unfold tradeOrderId; rw [h])

/-- Witness for C8: a trade with no metadata normalizes to PnL 0 and
order id "N/A"; one carrying `closedPnl = 7`, `oid = 12345` normalizes to
those values. -/
theorem trade_closed_pnl_oid_defaults_witness :
    tradeClosedPnl tradeZero = 0 ∧ tradeOrderId tradeZero = "N/A" ∧
    tradeClosedPnl tradeA = 7 ∧ tradeOrderId tradeA = "12345" := by
  have h0 := trade_closed_pnl_oid_defaults tradeZero
  have h1 := trade_closed_pnl_oid_defaults tradeA
  exact ⟨h0.1 rfl, h0.2.2.1 rfl, h1.2.1 7 rfl,
    (h1.2.2.2 12345 rfl).trans (by decide)⟩

/-- C9: the displayed trade time is the local rendering of the
epoch-milliseconds timestamp (converted to seconds) whenever the
timestamp is present and nonzero, and the current time when it is missing
or zero. -/
theorem trade_time_default_now (t : RawTrade) :
    (t.timestamp.getD 0 = 0 → tradeTime t = .currentTime) ∧
    (t.timestamp.getD 0 ≠ 0 →
      tradeTime t = .fromEpochSec (t.timestamp.getD 0 / 1000)) := by
  constructor <;> intro h <;> simp [tradeTime, h]

/-- Witness for C9: a trade with no timestamp displays the current time;
one stamped 86400000 ms displays the instant 86400 s. -/
theorem trade_time_default_now_witness :
    tradeTime tradeZero = PyTime.currentTime ∧
    tradeTime tradeTimed = PyTime.fromEpochSec 86400 := by
  have h0 := (trade_time_default_now tradeZero).1 rfl
  have h1 := (trade_time_default_now tradeTimed).2 (by decide)
  exact ⟨h0, h1.trans (by norm_num [tradeTimed])⟩

/-- C2: the trade history is a permutation of the concatenated per-symbol
results, pairwise descending in the timestamp key, and stable: for every
timestamp value, the subsequence of trades carrying that key is exactly
the same, in the same order, as in the concatenation. -/
theorem get_trade_history_sorted_stable (g : ExchangeGateway) (nowSec : ℚ) (days : ℤ) :
    (get_trade_history ⟨some g⟩ nowSec days).Perm
      ((tradeSymbols.map
        (fun symbol => fetchSymbolTrades g symbol (tradeSince nowSec days))).flatten) ∧
    (get_trade_history ⟨some g⟩ nowSec days).Pairwise (fun a b => tsKey b ≤ tsKey a) ∧
    ∀ ts : ℚ,
      (get_trade_history ⟨some g⟩ nowSec days).filter (fun t => tsKey t == ts) =
        ((tradeSymbols.map
          (fun symbol => fetchSymbolTrades g symbol (tradeSince nowSec days))).flatten).filter
          (fun t => tsKey t == ts) := by
  set L := (tradeSymbols.map
    (fun symbol => fetchSymbolTrades g symbol (tradeSince nowSec days))).flatten with hL
  refine ⟨?_, trade_history_pairwise g nowSec days, ?_⟩
  · rw [trade_history_eq_mergeSort]
    exact List.mergeSort_perm _ tradeDescLe
  · intro ts
    rw [trade_history_eq_mergeSort]
    have hmemp : ∀ a ∈ L.filter (fun t => tsKey t == ts), tsKey a = ts := by
      intro a ha
      simpa using (List.mem_filter.mp ha).2
    have hc : (L.filter (fun t => tsKey t == ts)).Pairwise
        (fun a b => tradeDescLe a b) := by
      apply List.pairwise_of_forall_mem_list
      intro a ha b hb
      show tradeDescLe a b = true
      unfold tradeDescLe
      rw [hmemp a ha, hmemp b hb]
      simp
    have hsub : (L.filter (fun t => tsKey t == ts)).Sublist
        (L.mergeSort tradeDescLe) :=
      List.sublist_mergeSort (fun a b c => tradeDescLe_trans a b c)
        (fun a b => tradeDescLe_total a b) hc (List.filter_sublist L)
    have hidem : (L.filter (fun t => tsKey t == ts)).filter (fun t => tsKey t == ts) =
        L.filter (fun t => tsKey t == ts) :=
      List.filter_eq_self.mpr (fun a ha => (List.mem_filter.mp ha).2)
    have hsub2 := hsub.filter (fun t => tsKey t == ts)
    rw [hidem] at hsub2
    have hlen : ((L.mergeSort tradeDescLe).filter (fun t => tsKey t == ts)).length =
        (L.filter (fun t => tsKey t == ts)).length :=
      ((List.mergeSort_perm L tradeDescLe).filter (fun t => tsKey t == ts)).length_eq
    exact (hsub2.eq_of_length hlen.symm).symm

/-- C10: in the combined newest-first trade history, every trade whose
timestamp is missing or zero (sort key 0) appears strictly after every
trade with a positive timestamp, and such a trade nevertheless displays
the current time. -/
theorem zero_timestamp_sorts_last (g : ExchangeGateway) (nowSec : ℚ) (days : ℤ) :
    (∀ i j : Fin (get_trade_history ⟨some g⟩ nowSec days).length,
      tsKey ((get_trade_history ⟨some g⟩ nowSec days).get i) = 0 →
      0 < tsKey ((get_trade_history ⟨some g⟩ nowSec days).get j) →
      (j : ℕ) < (i : ℕ)) ∧
    (∀ t : RawTrade, tsKey t = 0 → tradeTime t = .currentTime) := by
  constructor
  · intro i j hi hj
    have hp := trade_history_pairwise g nowSec days
    rw [List.pairwise_iff_get] at hp
    by_contra hcon
    push_neg at hcon
    rcases lt_or_eq_of_le hcon with hlt | heq
    · have hij : i < j := hlt
      have hle := hp i j hij
      rw [hi] at hle
      exact absurd (lt_of_lt_of_le hj hle) (lt_irrefl 0)
    · have hij : i = j := Fin.ext heq
      rw [hij] at hi
      rw [hi] at hj
      exact absurd hj (lt_irrefl 0)
  · intro t h
    have h0 : t.timestamp.getD 0 = 0 := h
    simp [tradeTime, h0]

/-- Witness for C10 at the sample gateway: the fully-missing trade keys
to 0, ends up last, and displays the current time. -/
theorem zero_timestamp_sorts_last_witness :
    tradeTime tradeZero = PyTime.currentTime := by
  have h := zero_timestamp_sorts_last sampleGateway 0 2
  exact h.2 tradeZero rfl

/-- C4 counterexample: changing the side filter to SELL over a single BUY
row yields the empty filtered set, for which the statistics panel renders
nothing at all — no Net PnL of 0 is displayed. -/
theorem trade_stats_empty_filter_none :
    filterTrades [sampleBuyRow] "All" "SELL" = [] ∧
    tradeStatistics (filterTrades [sampleBuyRow] "All" "SELL") = none :=
  ⟨by decide, by decide⟩

/-- C4 amended: for every nonempty filtered trade row set, after any
filter change, the displayed statistics are the filtered rows' total
closed PnL, total fees, and a Net PnL equal to their difference; for the
empty filtered set no statistics (in particular no net of 0) are
displayed. -/
theorem trade_stats_net_pnl (rows : List TradeRow) (filterSymbol filterSide : String)
    (h : filterTrades rows filterSymbol filterSide ≠ []) :
    tradeStatistics (filterTrades rows filterSymbol filterSide) =
      some ⟨((filterTrades rows filterSymbol filterSide).map (fun r => r.pnlDisp)).sum,
            ((filterTrades rows filterSymbol filterSide).map (fun r => r.feeDisp)).sum,
            ((filterTrades rows filterSymbol filterSide).map (fun r => r.pnlDisp)).sum -
              ((filterTrades rows filterSymbol filterSide).map (fun r => r.feeDisp)).sum⟩ := by
  unfold tradeStatistics
  rw [if_pos (List.length_pos.mpr h)]

/-- Witness for C4 amended: a single BUY row passing the filters shows
total closed PnL 5, total fees 1, net 4. -/
theorem trade_stats_net_pnl_witness :
    tradeStatistics (filterTrades [sampleBuyRow] "All" "BUY") = some ⟨5, 1, 4⟩ := by
  have h := trade_stats_net_pnl [sampleBuyRow] "All" "BUY" (by decide)
  rw [show filterTrades [sampleBuyRow] "All" "BUY" = [sampleBuyRow] from by decide] at h
  norm_num [sampleBuyRow] at h
  exact h

/-- C5 counterexample: a gateway whose only position is flat normalizes
to the empty position list, for which the dashboard shows the "No open
positions" message and no aggregate at all — no sum of 0 is displayed. -/
theorem positions_summary_empty_none :
    get_open_positions ⟨some flatGateway⟩ = [] ∧
    positionsSummary (get_open_positions ⟨some flatGateway⟩) = none :=
  ⟨by decide, by decide⟩

/-- C5 amended: for every nonempty sequence of normalized positions the
displayed aggregate unrealized PnL equals the sum of the positions'
`unrealizedPnl` fields (0 when missing); for the empty sequence no
aggregate is displayed. -/
theorem positions_summary_sum (positions : List RawPosition) (h : positions ≠ []) :
    positionsSummary positions =
      some ⟨positions.length,
            (positions.map (fun pos => pos.unrealizedPnl.getD 0)).sum,
            (positions.map (fun pos => pos.notional.getD 0)).sum⟩ := by
  unfold positionsSummary
  rw [if_neg (by simpa using h)]

/-- Witness for C5 amended: the two nonzero sample positions display an
aggregate unrealized PnL of 5 + (-1) = 4. -/
theorem positions_summary_sum_witness :
    positionsSummary [posLong, posShort] = some ⟨2, 4, 0⟩ := by
  have h := positions_summary_sum [posLong, posShort] (by decide)
  norm_num [posLong, posShort] at h
  exact h

/-- C6: for every lookback `days` in [1,7], the computed cutoff equals
now minus `days` days in epoch milliseconds, and that same single cutoff
is the `since` argument of the per-symbol fetch for each of the five
candidate symbols. -/
theorem trade_history_single_cutoff (g : ExchangeGateway) (nowMs : ℤ) (days : ℤ)
    (_h1 : 1 ≤ days) (_h7 : days ≤ 7) :
    tradeSince ((nowMs : ℚ) / 1000) days = nowMs - days * 86400000 ∧
    tradeSymbols.length = 5 ∧
    get_trade_history ⟨some g⟩ ((nowMs : ℚ) / 1000) days =
      ((tradeSymbols.map
        (fun symbol => fetchSymbolTrades g symbol (nowMs - days * 86400000))).flatten).mergeSort
        tradeDescLe := by
  have key : tradeSince ((nowMs : ℚ) / 1000) days = nowMs - days * 86400000 := by
    unfold tradeSince
    have e : (((nowMs : ℚ) / 1000 - (days : ℚ) * 86400) * 1000 : ℚ) =
        ((nowMs - days * 86400000 : ℤ) : ℚ) := by
      push_cast
      ring
    rw [e, pyInt_intCast]
  refine ⟨key, rfl, ?_⟩
  rw [trade_history_eq_mergeSort, key]

/-- Witness for C6: at a millisecond-aligned clock of 1700000000000 ms
and a 2-day lookback, the cutoff is 1700000000000 - 172800000. -/
theorem trade_history_single_cutoff_witness :
    tradeSince (((1700000000000 : ℤ) : ℚ) / 1000) 2 = 1699827200000 := by
  have h := (trade_history_single_cutoff sampleGateway 1700000000000 2
    (by norm_num) (by norm_num)).1
  exact h.trans (by norm_num)

end RiskDashboard
